import Mathlib

/-!
Verification development for the QuantumFlow trading-engine core.

The C++ sources are shallowly embedded: IEEE-754 doubles are modelled as
exact rationals, unsigned machine integers as naturals with explicit
wraparound where the code can overflow, and stateful classes as explicit
state-passing functions.  Member functions keep their C++ names.  The
limit-order-book sources (LOB/Book.h and friends) are not part of the
repository snapshot, so the book operations used by the main loop are
modelled from the specification; every other definition is translated
directly from the source files.
-/

namespace QuantumFlow

/-- Decoded symbol: the byte content of a fixed-width symbol field up to the
first NUL, as produced by reading a C string. -/
abbrev Symbol := List Nat

/-- Signal enumeration from common/signal_types.hpp. -/
inductive Signal where
  | NEUTRAL
  | BUY
  | SELL
  | LONG_SPOT_SHORT_PERP
  | SHORT_SPOT_LONG_PERP
  | LONG_PAIR
  | SHORT_PAIR
  deriving DecidableEq

/-- Element of the snapshot's bid/ask arrays (strategies/strategy_base.hpp). -/
structure PriceLevel where
  price : ℚ
  quantity : Nat
  order_count : Nat
  deriving DecidableEq

/-- BookSnapshot from strategies/strategy_base.hpp. -/
structure BookSnapshot where
  symbol : Symbol
  bids : List PriceLevel
  asks : List PriceLevel
  best_bid : ℚ
  best_ask : ℚ
  mid_price : ℚ
  timestamp_ns : Nat
  deriving DecidableEq

/-- TradeInfo from strategies/strategy_base.hpp. -/
structure TradeInfo where
  price : ℚ
  quantity : Nat
  side : Nat
  timestamp_ns : Nat
  deriving DecidableEq

/-- clamp_confidence from strategies/strategy_base.hpp. -/
def clamp_confidence (v : ℚ) : ℚ :=
  if v < 0 then 0 else if v > 1 then 1 else v

/-- StrategySignal from common/signal_types.hpp. -/
structure StrategySignal where
  strategy_name : String
  symbol : Symbol
  signal : Signal
  confidence : ℚ
  timestamp_ns : Nat
  deriving DecidableEq

namespace OrderBookImbalance

/-- Member state of OrderBookImbalance
(strategies/microstructure/order_book_imbalance.hpp). -/
structure State where
  top_n : Nat
  threshold : ℚ
  deriving DecidableEq

/-- OrderBookImbalance::compute_imbalance. -/
def compute_imbalance (st : State) (snapshot : BookSnapshot) : ℚ :=
  let bid_volume : ℚ := ((snapshot.bids.take st.top_n).map (fun l => (l.quantity : ℚ))).sum
  let ask_volume : ℚ := ((snapshot.asks.take st.top_n).map (fun l => (l.quantity : ℚ))).sum
  let total := bid_volume + ask_volume
  if total < 1 / 10 ^ 9 then 0 else (bid_volume - ask_volume) / total

/-- OrderBookImbalance::evaluate. -/
def evaluate (st : State) (snapshot : BookSnapshot) : Signal :=
  let imbalance := compute_imbalance st snapshot
  if imbalance > st.threshold then Signal.BUY
  else if imbalance < -st.threshold then Signal.SELL
  else Signal.NEUTRAL

/-- OrderBookImbalance::confidence. -/
def confidence (st : State) (snapshot : BookSnapshot) (signal : Signal) : ℚ :=
  if signal = Signal.NEUTRAL then 0
  else
    let imbalance := |compute_imbalance st snapshot|
    let threshold := max |st.threshold| (1 / 10 ^ 9)
    clamp_confidence ((imbalance - threshold) / threshold)

end OrderBookImbalance

namespace MarketMaker

/-- Member state of MarketMaker (strategies/microstructure/market_maker.hpp). -/
structure State where
  max_inventory : ℚ
  base_spread : ℚ
  inventory : ℚ
  deriving DecidableEq

/-- MarketMaker::inventory_ratio_abs_signed. -/
def inventory_ratio_abs_signed (st : State) : ℚ :=
  if |st.max_inventory| < 1 / 10 ^ 12 then 0 else st.inventory / st.max_inventory

/-- MarketMaker::evaluate. -/
def evaluate (st : State) (snapshot : BookSnapshot) : Signal :=
  if snapshot.mid_price ≤ 0 then Signal.NEUTRAL
  else
    let inventory_ratio := inventory_ratio_abs_signed st
    if inventory_ratio > 1 / 2 then Signal.SELL
    else if inventory_ratio < -(1 / 2) then Signal.BUY
    else Signal.NEUTRAL

/-- MarketMaker::confidence. -/
def confidence (st : State) (signal : Signal) : ℚ :=
  if signal = Signal.NEUTRAL then 0
  else
    let ratio := |inventory_ratio_abs_signed st|
    clamp_confidence ((ratio - 1 / 2) / (1 / 2))

/-- MarketMaker::on_trade. -/
def on_trade (st : State) (trade : TradeInfo) : State :=
  if trade.side = 0 then { st with inventory := st.inventory + (trade.quantity : ℚ) }
  else { st with inventory := st.inventory - (trade.quantity : ℚ) }

/-- MarketMaker::generate_quotes. -/
def generate_quotes (st : State) (mid_price : ℚ) : ℚ × ℚ :=
  let skew := (st.inventory / st.max_inventory) * (1 / 1000)
  let half_spread := mid_price * st.base_spread / 2
  (mid_price - half_spread - skew, mid_price + half_spread - skew)

end MarketMaker

namespace VWAPExecutor

/-- Member state of VWAPExecutor (strategies/microstructure/vwap_executor.hpp). -/
structure State where
  total_quantity : Nat
  time_horizon_ms : Nat
  volume_profile : List ℚ
  executed_quantity : Nat
  elapsed_ms : Nat
  deriving DecidableEq

/-- Constructor of VWAPExecutor: a uniform one-second-slice profile is filled
in when none is supplied. -/
def init (total_quantity time_horizon_ms : Nat) (volume_profile : List ℚ) : State :=
  let profile :=
    if volume_profile = [] then
      let slices := max (time_horizon_ms / 1000) 1
      List.replicate slices ((1 : ℚ) / (slices : ℚ))
    else volume_profile
  ⟨total_quantity, time_horizon_ms, profile, 0, 0⟩

/-- VWAPExecutor::compute_target_quantity; the uint64 cast of the double
target truncates toward zero. -/
def compute_target_quantity (st : State) : Option Nat :=
  let current_slice := st.elapsed_ms / 1000
  if st.volume_profile.length ≤ current_slice then none
  else
    let target_fraction := (st.volume_profile.take (current_slice + 1)).sum
    some (⌊(st.total_quantity : ℚ) * target_fraction⌋.toNat)

/-- VWAPExecutor::evaluate (reads only member state). -/
def evaluate (st : State) : Signal :=
  if st.total_quantity = 0 ∨ st.total_quantity ≤ st.executed_quantity then Signal.NEUTRAL
  else
    match compute_target_quantity st with
    | none => Signal.NEUTRAL
    | some target_qty =>
        if st.executed_quantity < target_qty then Signal.BUY else Signal.NEUTRAL

/-- VWAPExecutor::confidence. -/
def confidence (st : State) (signal : Signal) : ℚ :=
  if signal ≠ Signal.BUY ∨ st.total_quantity = 0 ∨ st.total_quantity ≤ st.executed_quantity then 0
  else
    match compute_target_quantity st with
    | none => 0
    | some target_qty =>
        if target_qty ≤ st.executed_quantity then 0
        else
          let deficit := target_qty - st.executed_quantity
          let remaining := max 1 (st.total_quantity - st.executed_quantity)
          clamp_confidence ((deficit : ℚ) / (remaining : ℚ))

/-- VWAPExecutor::on_trade. -/
def on_trade (st : State) (trade : TradeInfo) : State :=
  { st with executed_quantity := st.executed_quantity + trade.quantity }

/-- VWAPExecutor::advance_time. -/
def advance_time (st : State) (delta_ms : Nat) : State :=
  { st with elapsed_ms := st.elapsed_ms + delta_ms }

end VWAPExecutor

namespace LiquidityDetector

/-- Member state of LiquidityDetector
(strategies/microstructure/liquidity_detector.hpp). -/
structure State where
  min_fills : Int
  min_volume : Nat
  price_tolerance : ℚ
  deriving DecidableEq

/-- LiquidityDetector::iceberg_strength. -/
def iceberg_strength (st : State) (trades : List TradeInfo) (price_level : ℚ) : ℚ :=
  let matched := trades.filter (fun t => |t.price - price_level| < st.price_tolerance)
  let fill_count : Nat := matched.length
  let total_volume : Nat := (matched.map (fun t => t.quantity)).sum
  let fill_den : ℚ := ((max 1 st.min_fills : Int) : ℚ)
  let vol_den : ℚ := ((max 1 st.min_volume : Nat) : ℚ)
  min ((fill_count : ℚ) / fill_den) ((total_volume : ℚ) / vol_den)

/-- LiquidityDetector::evaluate. -/
def evaluate (st : State) (snapshot : BookSnapshot) (recent_trades : List TradeInfo) : Signal :=
  if recent_trades = [] ∨ snapshot.bids = [] then Signal.NEUTRAL
  else
    let bid_strength := iceberg_strength st recent_trades snapshot.best_bid
    let ask_strength := iceberg_strength st recent_trades snapshot.best_ask
    if bid_strength > 1 ∧ ¬ask_strength > 1 then Signal.BUY
    else if ask_strength > 1 ∧ ¬bid_strength > 1 then Signal.SELL
    else Signal.NEUTRAL

/-- LiquidityDetector::confidence. -/
def confidence (st : State) (snapshot : BookSnapshot) (recent_trades : List TradeInfo)
    (signal : Signal) : ℚ :=
  if signal = Signal.NEUTRAL ∨ recent_trades = [] ∨ snapshot.bids = [] then 0
  else
    let bid_strength := iceberg_strength st recent_trades snapshot.best_bid
    let ask_strength := iceberg_strength st recent_trades snapshot.best_ask
    let side_strength := if signal = Signal.BUY then bid_strength else ask_strength
    let opp_strength := if signal = Signal.BUY then ask_strength else bid_strength
    let side_score := clamp_confidence (side_strength - 1)
    let opp_score := clamp_confidence (opp_strength - 1)
    clamp_confidence (side_score * (1 - opp_score))

end LiquidityDetector

namespace FundingArbitrage

/-- Member state of FundingArbitrage (strategies/crypto/funding_arbitrage.hpp). -/
structure State where
  threshold : ℚ
  funding_rate : ℚ
  spot_price : ℚ
  perp_price : ℚ
  deriving DecidableEq

/-- FundingArbitrage::evaluate (reads only member state). -/
def evaluate (st : State) : Signal :=
  if st.funding_rate > st.threshold then Signal.LONG_SPOT_SHORT_PERP
  else if st.funding_rate < -st.threshold then Signal.SHORT_SPOT_LONG_PERP
  else Signal.NEUTRAL

/-- FundingArbitrage::confidence. -/
def confidence (st : State) (signal : Signal) : ℚ :=
  if signal = Signal.NEUTRAL then 0
  else
    let threshold := max |st.threshold| (1 / 10 ^ 9)
    let funding_excess := |st.funding_rate| - threshold
    let funding_score := clamp_confidence (funding_excess / threshold)
    let basis_score :=
      if st.spot_price > 1 / 10 ^ 9 ∧ st.perp_price > 1 / 10 ^ 9 then
        clamp_confidence ((|st.perp_price - st.spot_price| / st.spot_price) / (1 / 100))
      else 0
    clamp_confidence ((7 / 10) * funding_score + (3 / 10) * basis_score)

end FundingArbitrage

namespace MomentumStrategy

/-- Member state of MomentumStrategy (strategies/crypto/momentum.hpp); the
deque grows at the tail, oldest element first. -/
structure State where
  window : Nat
  threshold : ℚ
  price_history : List ℚ
  deriving DecidableEq

/-- MomentumStrategy::current_return. -/
def current_return (st : State) : ℚ :=
  if st.price_history.length < 2 ∨ |st.price_history.headD 0| < 1 / 10 ^ 12 then 0
  else (st.price_history.getLastD 0 - st.price_history.headD 0) / st.price_history.headD 0

/-- MomentumStrategy::evaluate (pushes the mid, pops the front past the
window, then classifies the windowed return). -/
def evaluate (st : State) (snapshot : BookSnapshot) : Signal × State :=
  if snapshot.mid_price ≤ 0 then (Signal.NEUTRAL, st)
  else
    let h1 := st.price_history ++ [snapshot.mid_price]
    let h2 := if st.window < h1.length then h1.drop 1 else h1
    let st' := { st with price_history := h2 }
    if h2.length < 2 then (Signal.NEUTRAL, st')
    else
      let returns := current_return st'
      if returns > st.threshold then (Signal.BUY, st')
      else if returns < -st.threshold then (Signal.SELL, st')
      else (Signal.NEUTRAL, st')

/-- MomentumStrategy::confidence. -/
def confidence (st : State) (signal : Signal) : ℚ :=
  if signal = Signal.NEUTRAL ∨ st.price_history.length < 2 then 0
  else
    let threshold := max |st.threshold| (1 / 10 ^ 9)
    let excess := |current_return st| - threshold
    clamp_confidence (excess / threshold)

end MomentumStrategy

namespace PairsTrading

/-- Member state of PairsTrading (strategies/equities/pairs_trading.hpp). -/
structure State where
  beta : ℚ
  window : Nat
  z_threshold : ℚ
  price1 : ℚ
  price2 : ℚ
  spread_history : List ℚ
  deriving DecidableEq

/-- PairsTrading::compute_z_score.  The double sqrt is modelled by the exact
rational square-root approximation; the claims proved about this strategy
hold for every value of the square root. -/
def compute_z_score (st : State) : Option ℚ :=
  if st.spread_history.length < st.window then none
  else
    let n : ℚ := (st.spread_history.length : ℚ)
    let mean := st.spread_history.sum / n
    let sq_sum := (st.spread_history.map (fun s => (s - mean) * (s - mean))).sum
    let std_dev := Rat.sqrt (sq_sum / n)
    if std_dev < 1 / 10 ^ 12 then none
    else some ((st.spread_history.getLastD 0 - mean) / std_dev)

/-- PairsTrading::update_prices. -/
def update_prices (st : State) (price1 price2 : ℚ) : State :=
  let spread := price1 - st.beta * price2
  let h1 := st.spread_history ++ [spread]
  { st with price1 := price1, price2 := price2,
            spread_history := if st.window < h1.length then h1.drop 1 else h1 }

/-- PairsTrading::evaluate (reads only member state). -/
def evaluate (st : State) : Signal :=
  match compute_z_score st with
  | none => Signal.NEUTRAL
  | some z_score =>
      if z_score > st.z_threshold then Signal.SHORT_PAIR
      else if z_score < -st.z_threshold then Signal.LONG_PAIR
      else Signal.NEUTRAL

/-- PairsTrading::confidence. -/
def confidence (st : State) (signal : Signal) : ℚ :=
  if signal = Signal.NEUTRAL then 0
  else
    match compute_z_score st with
    | none => 0
    | some z_score =>
        let threshold := max |st.z_threshold| (1 / 10 ^ 9)
        let excess := |z_score| - threshold
        clamp_confidence (excess / threshold)

end PairsTrading

/-- Closed set of the seven strategy implementations registered by main
(each constructor carries that strategy's member state). -/
inductive StratState where
  | obi (s : OrderBookImbalance.State)
  | mm (s : MarketMaker.State)
  | vwap (s : VWAPExecutor.State)
  | liq (s : LiquidityDetector.State)
  | farb (s : FundingArbitrage.State)
  | mom (s : MomentumStrategy.State)
  | pairs (s : PairsTrading.State)
  deriving DecidableEq

/-- Strategy::name dispatch. -/
def stratName : StratState → String
  | .obi _ => "OrderBookImbalance"
  | .mm _ => "MarketMaker"
  | .vwap _ => "VWAPExecutor"
  | .liq _ => "LiquidityDetector"
  | .farb _ => "FundingArbitrage"
  | .mom _ => "Momentum"
  | .pairs _ => "PairsTrading"

/-- Strategy::evaluate dispatch; evaluate may mutate the strategy's state
(only Momentum does among these calls). -/
def stratEvaluate : StratState → BookSnapshot → List TradeInfo → Signal × StratState
  | .obi s, snapshot, _ => (OrderBookImbalance.evaluate s snapshot, .obi s)
  | .mm s, snapshot, _ => (MarketMaker.evaluate s snapshot, .mm s)
  | .vwap s, _, _ => (VWAPExecutor.evaluate s, .vwap s)
  | .liq s, snapshot, recent_trades => (LiquidityDetector.evaluate s snapshot recent_trades, .liq s)
  | .farb s, _, _ => (FundingArbitrage.evaluate s, .farb s)
  | .mom s, snapshot, _ =>
      let (sig, s') := MomentumStrategy.evaluate s snapshot
      (sig, .mom s')
  | .pairs s, _, _ => (PairsTrading.evaluate s, .pairs s)

/-- Strategy::confidence dispatch. -/
def stratConfidence : StratState → BookSnapshot → List TradeInfo → Signal → ℚ
  | .obi s, snapshot, _, signal => OrderBookImbalance.confidence s snapshot signal
  | .mm s, _, _, signal => MarketMaker.confidence s signal
  | .vwap s, _, _, signal => VWAPExecutor.confidence s signal
  | .liq s, snapshot, recent_trades, signal =>
      LiquidityDetector.confidence s snapshot recent_trades signal
  | .farb s, _, _, signal => FundingArbitrage.confidence s signal
  | .mom s, _, _, signal => MomentumStrategy.confidence s signal
  | .pairs s, _, _, signal => PairsTrading.confidence s signal

/-- Strategy::on_trade dispatch (default implementation is a no-op). -/
def stratOnTrade : StratState → TradeInfo → StratState
  | .mm s, trade => .mm (MarketMaker.on_trade s trade)
  | .vwap s, trade => .vwap (VWAPExecutor.on_trade s trade)
  | st, _ => st

/-- Assignment through unordered_map bracket indexing: replace the value when
the key is present, append the binding otherwise. -/
def assocUpdate {α β : Type} [DecidableEq α] : List (α × β) → α → β → List (α × β)
  | [], k, v => [(k, v)]
  | (k', v') :: rest, k, v =>
      if k' = k then (k, v) :: rest else (k', v') :: assocUpdate rest k v

/-- Lookup in an association list, mirroring unordered_map find. -/
def assocFind {α β : Type} [DecidableEq α] : List (α × β) → α → Option β
  | [], _ => none
  | (k', v') :: rest, k => if k' = k then some v' else assocFind rest k

namespace StrategyEngine

/-- StrategyEngine::evaluate (strategies/strategy_engine.cpp): for each
strategy in insertion order, call its evaluate, build a StrategySignal whose
confidence field is the literal 1.0 written in the source, store it into the
latest-signal map, and append it to the returned batch.  Returns the batch,
the updated strategy states, and the updated map. -/
def evaluate : List StratState → List (String × StrategySignal) → BookSnapshot →
    List TradeInfo → Nat → List StrategySignal × List StratState × List (String × StrategySignal)
  | [], latest_signals, _, _, _ => ([], [], latest_signals)
  | st :: rest, latest_signals, snapshot, recent_trades, now_ns =>
      let (sig, st') := stratEvaluate st snapshot recent_trades
      let ss : StrategySignal := ⟨stratName st, snapshot.symbol, sig, 1, now_ns⟩
      let (sigs, sts, latest') :=
        evaluate rest (assocUpdate latest_signals (stratName st) ss) snapshot recent_trades now_ns
      (ss :: sigs, st' :: sts, latest')

/-- StrategyEngine::on_trade: broadcast to every strategy in insertion order. -/
def on_trade (strategies : List StratState) (trade : TradeInfo) : List StratState :=
  strategies.map (fun st => stratOnTrade st trade)

end StrategyEngine

/-- llround of an exact rational: round half away from zero, as the C library
does for doubles. -/
def llround (q : ℚ) : ℤ :=
  if 0 ≤ q then ⌊q + 1 / 2⌋ else -⌊-q + 1 / 2⌋

namespace PriceConverter

/-- PriceConverter::to_internal (common/price_converter.hpp): llround the
scaled price, then convert to the 32-bit unsigned PRICE, which wraps. -/
def to_internal (scale_factor : ℚ) (external_price : ℚ) : Nat :=
  ((llround (external_price * scale_factor)) % (2 ^ 32 : Int)).toNat

/-- PriceConverter::to_external: multiply by the reciprocal scale. -/
def to_external (scale_factor : ℚ) (internal_price : Nat) : ℚ :=
  (internal_price : ℚ) * (1 / scale_factor)

end PriceConverter

/-- Ring capacity of the ingress bridge (MarketDataBridge::CAPACITY). -/
def CAPACITY : Nat := 4096

/-- State of LockFreeRingBuffer (graphics/include/memory/allocator.h): head
and tail indexes are stored already masked into the capacity; the buffer is
a total array of slots, default-initialized at construction. -/
structure RingState (α : Type) where
  head : Nat
  tail : Nat
  buf : Nat → α

/-- LockFreeRingBuffer::tryPush: fail exactly when advancing the tail would
meet the head (one slot is always left empty); otherwise write the slot and
advance the tail. -/
def tryPush {α : Type} (item : α) (r : RingState α) : Bool × RingState α :=
  let nextTail := (r.tail + 1) % CAPACITY
  if nextTail = r.head then (false, r)
  else (true, ⟨r.head, nextTail, fun i => if i = r.tail then item else r.buf i⟩)

/-- LockFreeRingBuffer::tryPop: fail when head meets tail; otherwise read the
head slot and advance the head. -/
def tryPop {α : Type} (r : RingState α) : Option α × RingState α :=
  if r.head = r.tail then (none, r)
  else (some (r.buf r.head), ⟨(r.head + 1) % CAPACITY, r.tail, r.buf⟩)

/-- LockFreeRingBuffer::size: wrapped difference of tail and head, masked by
the capacity (both indices are below the capacity). -/
def ringSize {α : Type} (r : RingState α) : Nat :=
  (r.tail + CAPACITY - r.head) % CAPACITY

/-- MarketDataBridge state (bridge/shared_memory.hpp): the ring and the three
monotonic counters. -/
structure BridgeState (α : Type) where
  ring : RingState α
  push_count : Nat
  pop_count : Nat
  drop_count : Nat

/-- Bridge as constructed: empty ring with default-initialized slots, zeroed
counters. -/
def bridgeInit {α : Type} [Inhabited α] : BridgeState α :=
  ⟨⟨0, 0, fun _ => default⟩, 0, 0, 0⟩

/-- MarketDataBridge::push: count a successful tryPush in push_count and a
failed one in drop_count. -/
def bridgePush {α : Type} (packet : α) (s : BridgeState α) : Bool × BridgeState α :=
  let (ok, ring') := tryPush packet s.ring
  if ok then (true, ⟨ring', s.push_count + 1, s.pop_count, s.drop_count⟩)
  else (false, ⟨ring', s.push_count, s.pop_count, s.drop_count + 1⟩)

/-- MarketDataBridge::pop: count a successful tryPop in pop_count. -/
def bridgePop {α : Type} (s : BridgeState α) : Option α × BridgeState α :=
  let (item, ring') := tryPop s.ring
  match item with
  | some x => (some x, ⟨ring', s.push_count, s.pop_count + 1, s.drop_count⟩)
  | none => (none, ⟨ring', s.push_count, s.pop_count, s.drop_count⟩)

/-- One producer/consumer interaction with the bridge. -/
inductive BridgeOp (α : Type) where
  | push (packet : α)
  | pop

/-- Apply one bridge operation, discarding the returned value. -/
def applyOp {α : Type} (s : BridgeState α) : BridgeOp α → BridgeState α
  | .push packet => (bridgePush packet s).2
  | .pop => (bridgePop s).2

/-- Apply a whole interleaving of push and pop calls from the initial state. -/
def applyOps {α : Type} [Inhabited α] (ops : List (BridgeOp α)) : BridgeState α :=
  ops.foldl applyOp bridgeInit

/-- Iterate bridge pushes of the same packet. -/
def pushN {α : Type} (packet : α) : Nat → BridgeState α → BridgeState α
  | 0, s => s
  | n + 1, s => (bridgePush packet (pushN packet n s)).2

/-- Modelled from the spec: order side, LOB/Order.h being absent from the
snapshot (only its tests and callers are present). -/
inductive OrderType where
  | BUY
  | SELL
  deriving DecidableEq

/-- Modelled from the spec: order status as exercised by LOBTest.cpp. -/
inductive OrderStatus where
  | ACTIVE
  | FULFILLED
  | DELETED
  deriving DecidableEq

/-- Modelled from the spec: an order record of the book (LOB/Order.h absent). -/
structure OrderRec where
  order_id : Nat
  agent_id : Nat
  order_type : OrderType
  price : Nat
  original_volume : Nat
  remaining_volume : Nat
  status : OrderStatus
  deriving DecidableEq

/-- Modelled from the spec: a trade produced by matching, at the resting
maker's level price (field accessors get_trade_price / get_trade_volume). -/
structure TradeRec where
  taker_order_id : Nat
  maker_order_id : Nat
  price : Nat
  volume : Nat
  deriving DecidableEq

/-- One book side: price levels in priority order (bids descending, asks
ascending), each level a FIFO list of resting orders. -/
abbrev LevelList := List (Nat × List OrderRec)

/-- Modelled from the spec: the per-symbol order book (LOB/Book.h absent);
only the operations the verified loop exercises are modelled. -/
structure Book where
  bids : LevelList
  asks : LevelList
  deriving DecidableEq

/-- A freshly constructed book. -/
def Book.empty : Book := ⟨[], []⟩

/-- Modelled from the spec: match an incoming volume against the FIFO of one
price level; fill = min of both remainders, oldest order first; a fully
filled maker leaves the level. -/
def matchLevel (taker_id : Nat) : Nat → Nat → List OrderRec → List TradeRec × Nat × List OrderRec
  | vol, _, [] => ([], vol, [])
  | vol, price, m :: rest =>
      if vol = 0 then ([], 0, m :: rest)
      else
        let fill := min m.remaining_volume vol
        let tr : TradeRec := ⟨taker_id, m.order_id, price, fill⟩
        if m.remaining_volume ≤ vol then
          let (ts, vol', rest') := matchLevel taker_id (vol - fill) price rest
          (tr :: ts, vol', rest')
        else
          ([tr], vol - fill, { m with remaining_volume := m.remaining_volume - fill } :: rest)

/-- Modelled from the spec: consume opposite-side levels best-first while the
level price crosses the limit and volume remains; an emptied level is
removed from the side. -/
def matchLevels (taker_id : Nat) (crosses : Nat → Bool) : Nat → LevelList → List TradeRec × Nat × LevelList
  | vol, [] => ([], vol, [])
  | vol, (p, orders) :: rest =>
      if vol = 0 ∨ ¬crosses p then ([], vol, (p, orders) :: rest)
      else
        let (ts, vol', orders') := matchLevel taker_id vol p orders
        if orders' = [] then
          let (ts2, vol'', rest') := matchLevels taker_id crosses vol' rest
          (ts ++ ts2, vol'', rest')
        else (ts, vol', (p, orders') :: rest)

/-- Modelled from the spec: insert a resting order into its side, creating
the price level in sorted position or appending to the level's FIFO. -/
def insertLevel (before : Nat → Nat → Bool) (price : Nat) (o : OrderRec) : LevelList → LevelList
  | [] => [(price, [o])]
  | (p, orders) :: rest =>
      if price = p then (p, orders ++ [o]) :: rest
      else if before price p then (price, [o]) :: (p, orders) :: rest
      else (p, orders) :: insertLevel before price o rest

/-- Modelled from the spec: Book::place_order — reject price 0 or volume 0,
match against the crossing opposite levels, rest any remainder at the limit
price on the taker's side, and return the trades in match order. -/
def Book.place_order (b : Book) (order_id agent_id : Nat) (ot : OrderType)
    (price volume : Nat) : List TradeRec × Book :=
  if price = 0 ∨ volume = 0 then ([], b)
  else
    match ot with
    | .BUY =>
        let (trades, rem, asks') :=
          matchLevels order_id (fun p => decide (p ≤ price)) volume b.asks
        let bids' :=
          if rem > 0 then
            insertLevel (fun x y => decide (y < x)) price
              ⟨order_id, agent_id, .BUY, price, volume, rem, .ACTIVE⟩ b.bids
          else b.bids
        (trades, ⟨bids', asks'⟩)
    | .SELL =>
        let (trades, rem, bids') :=
          matchLevels order_id (fun p => decide (price ≤ p)) volume b.bids
        let asks' :=
          if rem > 0 then
            insertLevel (fun x y => decide (x < y)) price
              ⟨order_id, agent_id, .SELL, price, volume, rem, .ACTIVE⟩ b.asks
          else b.asks
        (trades, ⟨bids', asks'⟩)

/-- Level::get_total_volume — the sum of resident remainders. -/
def levelVolume (orders : List OrderRec) : Nat :=
  (orders.map (fun o => o.remaining_volume)).sum

/-- Book::get_best_buy — the first (highest) bid price. -/
def Book.best_buy (b : Book) : Nat := (b.bids.headD (0, [])).1

/-- Book::get_best_sell — the first (lowest) ask price. -/
def Book.best_sell (b : Book) : Nat := (b.asks.headD (0, [])).1

/-- Modelled from the spec: Book::get_mid_price — the average of the two
bests when both sides are populated, else 0. -/
def Book.mid_price (b : Book) : ℚ :=
  if b.bids ≠ [] ∧ b.asks ≠ [] then ((b.best_buy + b.best_sell : Nat) : ℚ) / 2 else 0

/-- BookSnapshot::from_book (strategies/strategy_base.cpp): walk both sides
in native order copying externalised price, aggregate volume and order
count; the mid is truncated to the integer PRICE before externalising. -/
def BookSnapshot.from_book (b : Book) (sym : Symbol) (scale : ℚ) : BookSnapshot :=
  { symbol := sym
    bids := b.bids.map (fun l =>
      ⟨PriceConverter.to_external scale l.1, levelVolume l.2, l.2.length⟩)
    asks := b.asks.map (fun l =>
      ⟨PriceConverter.to_external scale l.1, levelVolume l.2, l.2.length⟩)
    best_bid := if b.bids.length > 0 then PriceConverter.to_external scale b.best_buy else 0
    best_ask := if b.asks.length > 0 then PriceConverter.to_external scale b.best_sell else 0
    mid_price := if b.mid_price > 0 then PriceConverter.to_external scale ⌊b.mid_price⌋.toNat else 0
    timestamp_ns := 0 }

/-- MarketDataPacket (common/market_data_packet.hpp); the symbol field is the
raw 16-byte array. -/
structure MarketDataPacket where
  symbol : List Nat
  side : Nat
  event_type : Nat
  price : ℚ
  quantity : Nat
  timestamp_ns : Nat
  order_id : Nat
  deriving DecidableEq

/-- Reading the fixed-width symbol field as a C string: bytes up to the
first NUL. -/
def decodeSymbol (raw : List Nat) : Symbol :=
  (raw.take 16).takeWhile (fun b => b ≠ 0)

/-- ns_to_us from main.cpp. -/
def ns_to_us (ns : Nat) : ℚ := (ns : ℚ) / 1000

/-- The matching-thread state owned by main's loop. -/
structure EngineState where
  books : List (Symbol × Book)
  recent_trades : List (Symbol × List TradeInfo)
  active_symbol : Symbol
  latest_python_to_cpp_us : ℚ
  next_order_id : Nat
  strategies : List StratState
  latest_signals : List (String × StrategySignal)
  deriving DecidableEq

/-- process_packet from main.cpp (headless path): decode the symbol and drop
the packet if empty; set the active symbol; lazily create the book and an
empty history; update the ingest latency only for a positive timestamp not
in the future; dispatch book_level events through place_order and trade
events directly, appending produced trades to the history and fanning them
out to the strategies. -/
def process_packet (s : EngineState) (pkt : MarketDataPacket) (now_ns : Nat) : EngineState :=
  let sym := decodeSymbol pkt.symbol
  if sym = [] then s
  else
    let known := (assocFind s.books sym).isSome
    let books₁ := if known then s.books else assocUpdate s.books sym Book.empty
    let trades₁ := if known then s.recent_trades else assocUpdate s.recent_trades sym []
    let book := (assocFind books₁ sym).getD Book.empty
    let latest :=
      if 0 < pkt.timestamp_ns ∧ pkt.timestamp_ns ≤ now_ns then ns_to_us (now_ns - pkt.timestamp_ns)
      else s.latest_python_to_cpp_us
    if pkt.event_type = 0 then
      let ot := if pkt.side = 0 then OrderType.BUY else OrderType.SELL
      let internal_price := PriceConverter.to_internal 100 pkt.price
      let placed := book.place_order s.next_order_id 0 ot internal_price pkt.quantity
      let tis := placed.1.map (fun t =>
        (⟨PriceConverter.to_external 100 t.price, t.volume, pkt.side, pkt.timestamp_ns⟩ : TradeInfo))
      { books := assocUpdate books₁ sym placed.2
        recent_trades := assocUpdate trades₁ sym ((assocFind trades₁ sym).getD [] ++ tis)
        active_symbol := sym
        latest_python_to_cpp_us := latest
        next_order_id := s.next_order_id + 1
        strategies := tis.foldl StrategyEngine.on_trade s.strategies
        latest_signals := s.latest_signals }
    else if pkt.event_type = 1 then
      let ti : TradeInfo := ⟨pkt.price, pkt.quantity, pkt.side, pkt.timestamp_ns⟩
      { books := books₁
        recent_trades := assocUpdate trades₁ sym ((assocFind trades₁ sym).getD [] ++ [ti])
        active_symbol := sym
        latest_python_to_cpp_us := latest
        next_order_id := s.next_order_id
        strategies := StrategyEngine.on_trade s.strategies ti
        latest_signals := s.latest_signals }
    else
      { s with books := books₁, recent_trades := trades₁, active_symbol := sym,
               latest_python_to_cpp_us := latest }

/-- The snapshot step of one tick (main.cpp): when the active symbol has a
book, snapshot it, truncate that symbol's trade history to the most recent
500 entries when it exceeds 1000, and run the strategy fan-out on the
truncated history. -/
def snapshot_step (s : EngineState) (now_ns : Nat) : EngineState :=
  if s.active_symbol = [] then s
  else
    match assocFind s.books s.active_symbol with
    | none => s
    | some book =>
        let snapshot :=
          { BookSnapshot.from_book book s.active_symbol 100 with timestamp_ns := now_ns }
        let trades_buf := (assocFind s.recent_trades s.active_symbol).getD []
        let trades_buf' :=
          if trades_buf.length > 1000 then trades_buf.drop (trades_buf.length - 500)
          else trades_buf
        let result :=
          StrategyEngine.evaluate s.strategies s.latest_signals snapshot trades_buf' now_ns
        { s with recent_trades := assocUpdate s.recent_trades s.active_symbol trades_buf',
                 strategies := result.2.1,
                 latest_signals := result.2.2 }

/-- A datagram read from the bridge socket: either a full-size record or a
short read (counted as malformed and discarded). -/
inductive Datagram where
  | ok (packet : MarketDataPacket)
  | malformed

/-- Payload of a well-formed datagram. -/
def datagramPayload : Datagram → Option MarketDataPacket
  | .ok packet => some packet
  | .malformed => none

/-- Per-tick drain budget shared by both ingress sources (main.cpp). -/
def MAX_DRAIN_PER_FRAME : Nat := 256

/-- The ring half of the drain: pop while the budget allows and the ring is
non-empty, counting each processed event against the budget. -/
def drainRing : Nat → List MarketDataPacket → List MarketDataPacket
  | 0, _ => []
  | _ + 1, [] => []
  | budget + 1, p :: rest => p :: drainRing budget rest

/-- The socket half of the drain: read datagrams while the budget allows and
the queue is non-empty; a short read is discarded without touching the
budget, a full record is processed and counted. -/
def drainSocket : Nat → List Datagram → List MarketDataPacket
  | 0, _ => []
  | _ + 1, [] => []
  | budget + 1, d :: rest =>
      match d with
      | .malformed => drainSocket (budget + 1) rest
      | .ok p => p :: drainSocket budget rest

/-- The drain phase of one tick: the in-process ring first, then the socket
with whatever budget remains. -/
def drainTick (ring : List MarketDataPacket) (sock : List Datagram) : List MarketDataPacket :=
  let ringPart := drainRing MAX_DRAIN_PER_FRAME ring
  ringPart ++ drainSocket (MAX_DRAIN_PER_FRAME - ringPart.length) sock

/-- Feeding a sequence of mid prices through successive Momentum evaluate
calls, threading the mutated state and keeping the last signal. -/
def momFeed (st : MomentumStrategy.State) (mids : List ℚ) : Signal × MomentumStrategy.State :=
  mids.foldl (fun acc mid => MomentumStrategy.evaluate acc.2 ⟨[], [], [], 0, 0, mid, 0⟩)
    (Signal.NEUTRAL, st)

theorem clamp_confidence_mem (v : ℚ) : 0 ≤ clamp_confidence v ∧ clamp_confidence v ≤ 1 := by
  unfold clamp_confidence
  split_ifs with h1 h2
  · exact ⟨le_refl 0, zero_le_one⟩
  · exact ⟨zero_le_one, le_refl 1⟩
  · exact ⟨le_of_not_lt h1, le_of_not_lt h2⟩

theorem obi_confidence_mem (s : OrderBookImbalance.State) (snapshot : BookSnapshot)
    (signal : Signal) :
    0 ≤ OrderBookImbalance.confidence s snapshot signal ∧
      OrderBookImbalance.confidence s snapshot signal ≤ 1 := by
  unfold OrderBookImbalance.confidence
  split_ifs
  · exact ⟨le_refl 0, zero_le_one⟩
  · exact clamp_confidence_mem _

theorem mm_confidence_mem (s : MarketMaker.State) (signal : Signal) :
    0 ≤ MarketMaker.confidence s signal ∧ MarketMaker.confidence s signal ≤ 1 := by
  unfold MarketMaker.confidence
  split_ifs
  · exact ⟨le_refl 0, zero_le_one⟩
  · exact clamp_confidence_mem _

theorem vwap_confidence_mem (s : VWAPExecutor.State) (signal : Signal) :
    0 ≤ VWAPExecutor.confidence s signal ∧ VWAPExecutor.confidence s signal ≤ 1 := by
  unfold VWAPExecutor.confidence
  split_ifs
  · exact ⟨le_refl 0, zero_le_one⟩
  · cases hct : VWAPExecutor.compute_target_quantity s with
    | none => simp
    | some target_qty =>
        simp only
        split_ifs
        · exact ⟨le_refl 0, zero_le_one⟩
        · exact clamp_confidence_mem _

theorem liq_confidence_mem (s : LiquidityDetector.State) (snapshot : BookSnapshot)
    (recent_trades : List TradeInfo) (signal : Signal) :
    0 ≤ LiquidityDetector.confidence s snapshot recent_trades signal ∧
      LiquidityDetector.confidence s snapshot recent_trades signal ≤ 1 := by
  unfold LiquidityDetector.confidence
  split_ifs
  all_goals first
    | exact ⟨le_refl 0, zero_le_one⟩
    | exact clamp_confidence_mem _

theorem farb_confidence_mem (s : FundingArbitrage.State) (signal : Signal) :
    0 ≤ FundingArbitrage.confidence s signal ∧ FundingArbitrage.confidence s signal ≤ 1 := by
  unfold FundingArbitrage.confidence
  split_ifs
  all_goals first
    | exact ⟨le_refl 0, zero_le_one⟩
    | exact clamp_confidence_mem _

theorem mom_confidence_mem (s : MomentumStrategy.State) (signal : Signal) :
    0 ≤ MomentumStrategy.confidence s signal ∧ MomentumStrategy.confidence s signal ≤ 1 := by
  unfold MomentumStrategy.confidence
  split_ifs
  · exact ⟨le_refl 0, zero_le_one⟩
  · exact clamp_confidence_mem _

theorem pairs_confidence_mem (s : PairsTrading.State) (signal : Signal) :
    0 ≤ PairsTrading.confidence s signal ∧ PairsTrading.confidence s signal ≤ 1 := by
  unfold PairsTrading.confidence
  split_ifs
  · exact ⟨le_refl 0, zero_le_one⟩
  · cases hz : PairsTrading.compute_z_score s with
    | none => simp
    | some z => simp only; exact clamp_confidence_mem _

/-- C4: for every implemented strategy, every snapshot, every recent-trades
list and every signal value, the confidence returned by that strategy's
confidence method lies in the closed interval 0..1, and it equals 0 whenever
the signal is NEUTRAL.  Doubles are modelled as exact rationals. -/
theorem strategy_confidence_in_unit_interval_and_zero_on_neutral
    (st : StratState) (snapshot : BookSnapshot) (recent_trades : List TradeInfo)
    (signal : Signal) :
    (0 ≤ stratConfidence st snapshot recent_trades signal ∧
      stratConfidence st snapshot recent_trades signal ≤ 1) ∧
    stratConfidence st snapshot recent_trades Signal.NEUTRAL = 0 := by
  constructor
  · cases st with
    | obi s => exact obi_confidence_mem s snapshot signal
    | mm s => exact mm_confidence_mem s signal
    | vwap s => exact vwap_confidence_mem s signal
    | liq s => exact liq_confidence_mem s snapshot recent_trades signal
    | farb s => exact farb_confidence_mem s signal
    | mom s => exact mom_confidence_mem s signal
    | pairs s => exact pairs_confidence_mem s signal
  · cases st with
    | obi s => simp [stratConfidence, OrderBookImbalance.confidence]
    | mm s => simp [stratConfidence, MarketMaker.confidence]
    | vwap s => simp [stratConfidence, VWAPExecutor.confidence]
    | liq s => simp [stratConfidence, LiquidityDetector.confidence]
    | farb s => simp [stratConfidence, FundingArbitrage.confidence]
    | mom s => simp [stratConfidence, MomentumStrategy.confidence]
    | pairs s => simp [stratConfidence, PairsTrading.confidence]

/-- C10: a VWAPExecutor whose total_quantity is 0 — the default
configuration registered by main — returns NEUTRAL from every evaluate call
and 0 from every confidence call, for every snapshot, recent-trades list,
profile, executed quantity and elapsed time. -/
theorem vwap_zero_total_quantity_always_neutral
    (time_horizon_ms : Nat) (volume_profile : List ℚ) (executed_quantity elapsed_ms : Nat)
    (snapshot : BookSnapshot) (recent_trades : List TradeInfo) (signal : Signal) :
    stratEvaluate (.vwap ⟨0, time_horizon_ms, volume_profile, executed_quantity, elapsed_ms⟩)
        snapshot recent_trades
      = (Signal.NEUTRAL, .vwap ⟨0, time_horizon_ms, volume_profile, executed_quantity, elapsed_ms⟩) ∧
    stratConfidence (.vwap ⟨0, time_horizon_ms, volume_profile, executed_quantity, elapsed_ms⟩)
        snapshot recent_trades signal = 0 := by
  constructor
  · simp [stratEvaluate, VWAPExecutor.evaluate]
  · simp [stratConfidence, VWAPExecutor.confidence]

/-- C6: a MomentumStrategy with window 5 and threshold 0.02 fed the mids
100, 101, 102, 103, 104 through five evaluate calls returns BUY from the
fifth call, and its confidence for that BUY equals
clamp(((104-100)/100 - 0.02)/0.02) = 1. -/
theorem momentum_uptrend_scenario :
    (momFeed ⟨5, 1 / 50, []⟩ [100, 101, 102, 103, 104]).1 = Signal.BUY ∧
    MomentumStrategy.confidence (momFeed ⟨5, 1 / 50, []⟩ [100, 101, 102, 103, 104]).2
        Signal.BUY = 1 ∧
    clamp_confidence ((((104 : ℚ) - 100) / 100 - 1 / 50) / (1 / 50)) = 1 := by
  have h100 : MomentumStrategy.evaluate ⟨5, 1 / 50, []⟩ ⟨[], [], [], 0, 0, 100, 0⟩
      = (Signal.NEUTRAL, ⟨5, 1 / 50, [100]⟩) := by
    norm_num [MomentumStrategy.evaluate]
  have h101 : MomentumStrategy.evaluate ⟨5, 1 / 50, [100]⟩ ⟨[], [], [], 0, 0, 101, 0⟩
      = (Signal.NEUTRAL, ⟨5, 1 / 50, [100, 101]⟩) := by
    norm_num [MomentumStrategy.evaluate, MomentumStrategy.current_return, List.getLastD]
  have h102 : MomentumStrategy.evaluate ⟨5, 1 / 50, [100, 101]⟩ ⟨[], [], [], 0, 0, 102, 0⟩
      = (Signal.NEUTRAL, ⟨5, 1 / 50, [100, 101, 102]⟩) := by
    norm_num [MomentumStrategy.evaluate, MomentumStrategy.current_return, List.getLastD]
  have h103 : MomentumStrategy.evaluate ⟨5, 1 / 50, [100, 101, 102]⟩ ⟨[], [], [], 0, 0, 103, 0⟩
      = (Signal.BUY, ⟨5, 1 / 50, [100, 101, 102, 103]⟩) := by
    norm_num [MomentumStrategy.evaluate, MomentumStrategy.current_return, List.getLastD]
  have h104 : MomentumStrategy.evaluate ⟨5, 1 / 50, [100, 101, 102, 103]⟩
        ⟨[], [], [], 0, 0, 104, 0⟩
      = (Signal.BUY, ⟨5, 1 / 50, [100, 101, 102, 103, 104]⟩) := by
    norm_num [MomentumStrategy.evaluate, MomentumStrategy.current_return, List.getLastD]
  have hfeed : momFeed ⟨5, 1 / 50, []⟩ [100, 101, 102, 103, 104]
      = (Signal.BUY, ⟨5, 1 / 50, [100, 101, 102, 103, 104]⟩) := by
    simp only [momFeed, List.foldl_cons, List.foldl_nil, h100, h101, h102, h103, h104]
  refine ⟨by rw [hfeed], ?_, by norm_num [clamp_confidence]⟩
  rw [hfeed]
  norm_num [MomentumStrategy.confidence, MomentumStrategy.current_return, List.getLastD,
    clamp_confidence, max_def, abs]
  decide

/-- Inductive invariant of the bridge: both ring indices stay below the
capacity, and the number of successful pushes equals the number of
successful pops plus the current ring occupancy. -/
def BridgeInv {α : Type} (s : BridgeState α) : Prop :=
  s.ring.head < CAPACITY ∧ s.ring.tail < CAPACITY ∧
    s.push_count = s.pop_count + ringSize s.ring

theorem bridgeInit_inv {α : Type} [Inhabited α] : BridgeInv (bridgeInit : BridgeState α) := by
  refine ⟨?_, ?_, ?_⟩ <;> simp [bridgeInit, ringSize, CAPACITY]

theorem bridge_inv_applyOp {α : Type} (s : BridgeState α) (op : BridgeOp α)
    (h : BridgeInv s) : BridgeInv (applyOp s op) := by
  obtain ⟨hh, ht, hc⟩ := h
  simp only [ringSize, CAPACITY] at hh ht hc
  cases op with
  | push packet =>
      by_cases hfull : (s.ring.tail + 1) % CAPACITY = s.ring.head
      · simp only [CAPACITY] at hfull
        simp [applyOp, bridgePush, tryPush, CAPACITY, hfull, BridgeInv, ringSize]
        omega
      · simp only [CAPACITY] at hfull
        simp [applyOp, bridgePush, tryPush, CAPACITY, hfull, BridgeInv, ringSize]
        omega
  | pop =>
      by_cases hemp : s.ring.head = s.ring.tail
      · simp [applyOp, bridgePop, tryPop, hemp, BridgeInv, ringSize, CAPACITY]
        omega
      · simp [applyOp, bridgePop, tryPop, hemp, BridgeInv, ringSize, CAPACITY]
        omega

theorem bridge_inv_foldl {α : Type} (ops : List (BridgeOp α)) (s : BridgeState α)
    (h : BridgeInv s) : BridgeInv (ops.foldl applyOp s) := by
  induction ops generalizing s with
  | nil => exact h
  | cons op rest ih => exact ih _ (bridge_inv_applyOp s op h)

/-- C2 (amended): for every state of the bridge reachable by any interleaving
of push and pop calls, push_count minus pop_count equals the current ring
occupancy (push_count counts only successful pushes; dropped pushes are
counted separately in drop_count and never enter the ring). -/
theorem ingress_ring_push_minus_pop_eq_size {α : Type} [Inhabited α]
    (ops : List (BridgeOp α)) :
    ((applyOps ops).push_count : ℤ) - ((applyOps ops).pop_count : ℤ)
      = (ringSize (applyOps ops).ring : ℤ) := by
  obtain ⟨-, -, hc⟩ := bridge_inv_foldl ops bridgeInit bridgeInit_inv
  simp only [applyOps] at hc ⊢
  omega

theorem pushN_char (k : Nat) (hk : k ≤ 4095) :
    (pushN () k bridgeInit).ring.head = 0 ∧ (pushN () k bridgeInit).ring.tail = k ∧
    (pushN () k bridgeInit).push_count = k ∧ (pushN () k bridgeInit).pop_count = 0 ∧
    (pushN () k bridgeInit).drop_count = 0 := by
  induction k with
  | zero => simp [pushN, bridgeInit]
  | succ n ih =>
      obtain ⟨h1, h2, h3, h4, h5⟩ := ih (by omega)
      have hcond : ¬((n + 1) % 4096 = 0) := by omega
      simp [pushN, bridgePush, tryPush, CAPACITY, h1, h2, h3, h4, h5, hcond]
      omega

theorem pushN_succ (m : Nat) (s : BridgeState Unit) :
    pushN () (m + 1) s = (bridgePush () (pushN () m s)).2 := rfl

theorem ringSize_def {α : Type} (r : RingState α) :
    ringSize r = (r.tail + CAPACITY - r.head) % CAPACITY := rfl

theorem bridgePush_full_fields {α : Type} (packet : α) (s : BridgeState α)
    (h : (s.ring.tail + 1) % CAPACITY = s.ring.head) :
    (bridgePush packet s).1 = false ∧
    (bridgePush packet s).2.ring = s.ring ∧
    (bridgePush packet s).2.push_count = s.push_count ∧
    (bridgePush packet s).2.pop_count = s.pop_count ∧
    (bridgePush packet s).2.drop_count = s.drop_count + 1 := by
  simp [bridgePush, tryPush, h]

theorem pushN_push_comm (m : Nat) (s : BridgeState Unit) :
    pushN () m ((bridgePush () s).2) = (bridgePush () (pushN () m s)).2 := by
  induction m with
  | zero => rfl
  | succ k ih => simp only [pushN, ih]

theorem foldl_replicate_push (n : Nat) (s : BridgeState Unit) :
    (List.replicate n (BridgeOp.push ())).foldl applyOp s = pushN () n s := by
  induction n generalizing s with
  | zero => rfl
  | succ m ih =>
      rw [List.replicate_succ, List.foldl_cons, ih]
      exact pushN_push_comm m s

/-- C2 counterexample: after the interleaving of 4096 pushes on the empty
capacity-4096 bridge, push_count = 4095, drop_count = 1 and pop_count = 0
while the ring holds 4095 elements, so push_count − drop_count − pop_count
differs from the current size. -/
theorem ingress_ring_counter_identity_fails_after_drop :
    ((applyOps (List.replicate 4096 (BridgeOp.push ()))).push_count : ℤ)
        - ((applyOps (List.replicate 4096 (BridgeOp.push ()))).drop_count : ℤ)
        - ((applyOps (List.replicate 4096 (BridgeOp.push ()))).pop_count : ℤ)
      ≠ (ringSize (applyOps (List.replicate 4096 (BridgeOp.push ()))).ring : ℤ) := by
  obtain ⟨h1, h2, h3, h4, h5⟩ := pushN_char 4095 (by omega)
  have hfull : ((pushN () 4095 bridgeInit).ring.tail + 1) % CAPACITY
      = (pushN () 4095 bridgeInit).ring.head := by
    rw [h1, h2]
    decide
  have hstep : applyOps (List.replicate 4096 (BridgeOp.push ()))
      = (bridgePush () (pushN () 4095 bridgeInit)).2 := by
    rw [applyOps, foldl_replicate_push, show (4096 : Nat) = 4095 + 1 from rfl, pushN_succ]
  rw [hstep]
  obtain ⟨hb, hr, hp, hq, hd⟩ := bridgePush_full_fields () (pushN () 4095 bridgeInit) hfull
  rw [hp, hq, hd, hr, h3, h4, h5, ringSize_def, h1, h2, show CAPACITY = 4096 from rfl]
  omega

/-- C3: starting from the empty capacity-4096 ingress ring, each of the
first 4095 pushes returns true; the 4096th push returns false, leaves the
ring state (contents and size) unchanged, and raises drop_count to 1.  Push
is a total function of the state: it never blocks. -/
theorem ingress_ring_overflow_scenario :
    (∀ k, k < 4095 → (bridgePush () (pushN () k bridgeInit)).1 = true) ∧
    (bridgePush () (pushN () 4095 bridgeInit)).1 = false ∧
    (bridgePush () (pushN () 4095 bridgeInit)).2.ring = (pushN () 4095 bridgeInit).ring ∧
    ringSize (bridgePush () (pushN () 4095 bridgeInit)).2.ring = 4095 ∧
    (bridgePush () (pushN () 4095 bridgeInit)).2.drop_count = 1 := by
  obtain ⟨h1, h2, h3, h4, h5⟩ := pushN_char 4095 (by omega)
  have hfull : ((pushN () 4095 bridgeInit).ring.tail + 1) % CAPACITY
      = (pushN () 4095 bridgeInit).ring.head := by
    rw [h1, h2]
    decide
  obtain ⟨hb, hr, hp, hq, hd⟩ := bridgePush_full_fields () (pushN () 4095 bridgeInit) hfull
  refine ⟨?_, hb, hr, ?_, ?_⟩
  · intro k hk
    obtain ⟨g1, g2, g3, g4, g5⟩ := pushN_char k (by omega)
    have hcond : ¬((pushN () k bridgeInit).ring.tail + 1) % CAPACITY
        = (pushN () k bridgeInit).ring.head := by
      rw [g1, g2]
      simp only [CAPACITY]
      omega
    simp [bridgePush, tryPush, hcond]
  · rw [hr, ringSize_def, h1, h2, show CAPACITY = 4096 from rfl]
  · rw [hd, h5]

/-- Witness for C3: the very first push on the empty bridge succeeds. -/
theorem ingress_ring_overflow_scenario_witness :
    (bridgePush () (pushN () 0 bridgeInit)).1 = true :=
  ingress_ring_overflow_scenario.1 0 (by omega)

theorem drainRing_eq_take (budget : Nat) (ring : List MarketDataPacket) :
    drainRing budget ring = ring.take budget := by
  induction budget generalizing ring with
  | zero => cases ring <;> simp [drainRing]
  | succ b ih => cases ring with
    | nil => simp [drainRing]
    | cons p rest => simp [drainRing, ih]

theorem drainSocket_sublist (budget : Nat) (sock : List Datagram) :
    List.Sublist (drainSocket budget sock) (sock.filterMap datagramPayload) := by
  induction sock generalizing budget with
  | nil => cases budget <;> simp [drainSocket]
  | cons d rest ih =>
      cases budget with
      | zero => simp [drainSocket]
      | succ b =>
          cases d with
          | malformed =>
              simpa [drainSocket, datagramPayload] using ih (b + 1)
          | ok p =>
              simpa [drainSocket, datagramPayload] using List.Sublist.cons₂ p (ih b)

theorem drainSocket_length_le (budget : Nat) (sock : List Datagram) :
    (drainSocket budget sock).length ≤ budget := by
  induction sock generalizing budget with
  | nil => cases budget <;> simp [drainSocket]
  | cons d rest ih =>
      cases budget with
      | zero => simp [drainSocket]
      | succ b =>
          cases d with
          | malformed => exact ih (b + 1)
          | ok p =>
              have := ih b
              simp only [drainSocket, List.length_cons]
              omega

/-- C7: within a tick the drain processes the in-process ring strictly
before the socket, each source in FIFO order (a prefix of the ring, an
order-preserving selection of the well-formed datagrams), and at most 256
events in total across both sources. -/
theorem drain_ring_before_socket_fifo_budget (ring : List MarketDataPacket)
    (sock : List Datagram) :
    drainTick ring sock
      = ring.take MAX_DRAIN_PER_FRAME
        ++ drainSocket (MAX_DRAIN_PER_FRAME - (ring.take MAX_DRAIN_PER_FRAME).length) sock ∧
    List.Sublist
      (drainSocket (MAX_DRAIN_PER_FRAME - (ring.take MAX_DRAIN_PER_FRAME).length) sock)
      (sock.filterMap datagramPayload) ∧
    (drainTick ring sock).length ≤ MAX_DRAIN_PER_FRAME := by
  refine ⟨?_, drainSocket_sublist _ _, ?_⟩
  · simp only [drainTick]
    rw [drainRing_eq_take]
  · simp only [drainTick, List.length_append]
    rw [drainRing_eq_take]
    have h1 := drainSocket_length_le
      (MAX_DRAIN_PER_FRAME - (ring.take MAX_DRAIN_PER_FRAME).length) sock
    have h2 : (ring.take MAX_DRAIN_PER_FRAME).length ≤ MAX_DRAIN_PER_FRAME := by
      simp [List.length_take]
    omega

/-- C1 (bug evidence): StrategyEngine::evaluate stamps every signal with the
literal confidence 1.0 and stores that same record in the latest-signal map;
it never calls the strategy's own confidence method.  At this input the
registered Momentum strategy evaluates to NEUTRAL and its confidence method
returns 0, yet the batched and stored record carries confidence 1. -/
theorem strategy_engine_evaluate_hardcodes_confidence_one :
    (StrategyEngine.evaluate [.mom ⟨20, 1 / 50, []⟩] [] ⟨[], [], [], 0, 0, 0, 0⟩ [] 7).1
      = [⟨"Momentum", [], Signal.NEUTRAL, 1, 7⟩] ∧
    (StrategyEngine.evaluate [.mom ⟨20, 1 / 50, []⟩] [] ⟨[], [], [], 0, 0, 0, 0⟩ [] 7).2.2
      = [("Momentum", ⟨"Momentum", [], Signal.NEUTRAL, 1, 7⟩)] ∧
    stratConfidence (.mom ⟨20, 1 / 50, []⟩) ⟨[], [], [], 0, 0, 0, 0⟩ [] Signal.NEUTRAL = 0 := by
  have heval : MomentumStrategy.evaluate ⟨20, 1 / 50, []⟩ ⟨[], [], [], 0, 0, 0, 0⟩
      = (Signal.NEUTRAL, ⟨20, 1 / 50, []⟩) := by
    norm_num [MomentumStrategy.evaluate]
  have hengine : StrategyEngine.evaluate [.mom ⟨20, 1 / 50, []⟩] [] ⟨[], [], [], 0, 0, 0, 0⟩ [] 7
      = ([⟨"Momentum", [], Signal.NEUTRAL, 1, 7⟩], [.mom ⟨20, 1 / 50, []⟩],
          [("Momentum", ⟨"Momentum", [], Signal.NEUTRAL, 1, 7⟩)]) := by
    simp only [StrategyEngine.evaluate, stratEvaluate, stratName, heval, assocUpdate]
  refine ⟨by rw [hengine], by rw [hengine], ?_⟩
  simp [stratConfidence, MomentumStrategy.confidence]

/-- C9: an ingress event whose 16-byte symbol field decodes to the empty
string is a complete no-op for the engine state: no book is created or
updated, no order id is consumed, no trade is appended, no strategy is
notified, and active symbol and latest ingest latency are unchanged. -/
theorem empty_symbol_packet_is_noop (s : EngineState) (pkt : MarketDataPacket) (now_ns : Nat)
    (h : decodeSymbol pkt.symbol = []) :
    process_packet s pkt now_ns = s := by
  simp [process_packet, h]

/-- Witness for C9: a packet whose symbol field is all NUL bytes leaves a
concrete engine state untouched. -/
theorem empty_symbol_packet_is_noop_witness :
    process_packet ⟨[], [], [], 0, 1, [], []⟩ ⟨List.replicate 16 0, 0, 0, 100, 5, 3, 0⟩ 9
      = ⟨[], [], [], 0, 1, [], []⟩ :=
  empty_symbol_packet_is_noop _ _ _ (by decide)

theorem process_packet_latest_eq (s : EngineState) (pkt : MarketDataPacket) (now_ns : Nat)
    (hsym : decodeSymbol pkt.symbol ≠ []) :
    (process_packet s pkt now_ns).latest_python_to_cpp_us =
      if 0 < pkt.timestamp_ns ∧ pkt.timestamp_ns ≤ now_ns then
        ns_to_us (now_ns - pkt.timestamp_ns)
      else s.latest_python_to_cpp_us := by
  simp only [process_packet]
  rw [if_neg hsym]
  split_ifs <;> rfl

/-- C5 (amended): for every event consumed in the drain step whose symbol is
non-empty, the latest ingest latency is set to (now − timestamp_ns) in
microseconds exactly when 0 < timestamp_ns ≤ now, and is left unchanged
otherwise (in particular for timestamp 0, which the code's guard excludes). -/
theorem ingest_latency_update_guard (s : EngineState) (pkt : MarketDataPacket) (now_ns : Nat)
    (hsym : decodeSymbol pkt.symbol ≠ []) :
    (0 < pkt.timestamp_ns → pkt.timestamp_ns ≤ now_ns →
      (process_packet s pkt now_ns).latest_python_to_cpp_us
        = ns_to_us (now_ns - pkt.timestamp_ns)) ∧
    (pkt.timestamp_ns = 0 ∨ now_ns < pkt.timestamp_ns →
      (process_packet s pkt now_ns).latest_python_to_cpp_us
        = s.latest_python_to_cpp_us) := by
  constructor
  · intro h1 h2
    rw [process_packet_latest_eq s pkt now_ns hsym, if_pos ⟨h1, h2⟩]
  · intro h
    rw [process_packet_latest_eq s pkt now_ns hsym, if_neg (by omega)]

/-- Witness for C5: a packet with timestamp 5 consumed at time 1005 sets a
concrete state's latency to 1 microsecond. -/
theorem ingest_latency_update_guard_witness :
    (process_packet ⟨[], [], [], 0, 1, [], []⟩ ⟨[65], 0, 1, 100, 5, 5, 0⟩ 1005).latest_python_to_cpp_us
      = ns_to_us (1005 - 5) :=
  (ingest_latency_update_guard ⟨[], [], [], 0, 1, [], []⟩ ⟨[65], 0, 1, 100, 5, 5, 0⟩ 1005
    (by decide)).1 (by decide) (by decide)

/-- C5 counterexample: a trade event with timestamp_ns = 0 satisfies the
claim's condition timestamp ≤ now, yet the code's guard (which also requires
timestamp > 0) leaves the latency at its previous value 42 instead of
setting it to (now − 0) microseconds. -/
theorem ingest_latency_zero_timestamp_not_updated :
    ((⟨[65], 0, 1, 100, 5, 0, 0⟩ : MarketDataPacket).timestamp_ns ≤ 1000000000) ∧
    (process_packet ⟨[], [], [], 42, 1, [], []⟩ ⟨[65], 0, 1, 100, 5, 0, 0⟩
        1000000000).latest_python_to_cpp_us = 42 ∧
    (42 : ℚ) ≠ ns_to_us (1000000000 - (⟨[65], 0, 1, 100, 5, 0, 0⟩ : MarketDataPacket).timestamp_ns) := by
  refine ⟨by decide, ?_, ?_⟩
  · rw [process_packet_latest_eq _ _ _ (by decide), if_neg (by decide)]
  · norm_num [ns_to_us]

theorem assocFind_update_self {α β : Type} [DecidableEq α] (l : List (α × β)) (k : α) (v : β) :
    assocFind (assocUpdate l k v) k = some v := by
  induction l with
  | nil => simp [assocUpdate, assocFind]
  | cons p rest ih =>
      obtain ⟨k', v'⟩ := p
      by_cases h : k' = k
      · simp [assocUpdate, assocFind, h]
      · simp [assocUpdate, assocFind, h, ih]

theorem assocFind_update_other {α β : Type} [DecidableEq α] (l : List (α × β)) (k : α) (v : β)
    (k2 : α) (h : k2 ≠ k) :
    assocFind (assocUpdate l k v) k2 = assocFind l k2 := by
  induction l with
  | nil => simp [assocUpdate, assocFind, Ne.symm h]
  | cons p rest ih =>
      obtain ⟨k', v'⟩ := p
      by_cases hk : k' = k
      · subst hk
        simp [assocUpdate, assocFind, Ne.symm h]
      · simp [assocUpdate, assocFind, hk, ih]

theorem snapshot_step_trades (s : EngineState) (now_ns : Nat) (hact : s.active_symbol ≠ [])
    (book : Book) (hbook : assocFind s.books s.active_symbol = some book) :
    (snapshot_step s now_ns).recent_trades
      = assocUpdate s.recent_trades s.active_symbol
          (if ((assocFind s.recent_trades s.active_symbol).getD []).length > 1000 then
            ((assocFind s.recent_trades s.active_symbol).getD []).drop
              (((assocFind s.recent_trades s.active_symbol).getD []).length - 500)
          else (assocFind s.recent_trades s.active_symbol).getD []) := by
  simp only [snapshot_step]
  rw [if_neg hact, hbook]

/-- C8 (amended): at the snapshot step of a tick, the active symbol's trade
history — and only the active symbol's — is truncated from the head to the
most recent 500 trades (a suffix, so order is preserved) when it exceeds
1000 entries; histories of all other symbols are left untouched even when
they exceed 1000 entries. -/
theorem trade_history_truncation_active_symbol (s : EngineState) (now_ns : Nat)
    (hact : s.active_symbol ≠ []) (book : Book)
    (hbook : assocFind s.books s.active_symbol = some book)
    (hlen : ((assocFind s.recent_trades s.active_symbol).getD []).length > 1000) :
    assocFind (snapshot_step s now_ns).recent_trades s.active_symbol
      = some (((assocFind s.recent_trades s.active_symbol).getD []).drop
          (((assocFind s.recent_trades s.active_symbol).getD []).length - 500)) ∧
    (((assocFind s.recent_trades s.active_symbol).getD []).drop
        (((assocFind s.recent_trades s.active_symbol).getD []).length - 500)).length = 500 ∧
    (∀ sym, sym ≠ s.active_symbol →
      assocFind (snapshot_step s now_ns).recent_trades sym
        = assocFind s.recent_trades sym) := by
  refine ⟨?_, ?_, ?_⟩
  · rw [snapshot_step_trades s now_ns hact book hbook, if_pos hlen, assocFind_update_self]
  · rw [List.length_drop]
    omega
  · intro sym hsym
    rw [snapshot_step_trades s now_ns hact book hbook, assocFind_update_other _ _ _ _ hsym]

/-- Sample trade used by the concrete truncation states. -/
def tiSample : TradeInfo := ⟨1, 2, 0, 3⟩

/-- Concrete engine state whose active symbol's history holds 1001 trades. -/
def sW8 : EngineState :=
  ⟨[([66], Book.empty)], [([66], List.replicate 1001 tiSample)], [66], 0, 1, [], []⟩

/-- Witness for C8: on a concrete state whose active symbol has 1001 trades,
the snapshot step truncates that history as stated. -/
theorem trade_history_truncation_active_symbol_witness :
    assocFind (snapshot_step sW8 3).recent_trades sW8.active_symbol
      = some (((assocFind sW8.recent_trades sW8.active_symbol).getD []).drop
          (((assocFind sW8.recent_trades sW8.active_symbol).getD []).length - 500)) :=
  (trade_history_truncation_active_symbol sW8 3 (by decide) Book.empty (by decide)
    (by
      have h : assocFind sW8.recent_trades sW8.active_symbol
          = some (List.replicate 1001 tiSample) := rfl
      rw [h]
      simp only [Option.getD_some, List.length_replicate]
      omega)).1

/-- Concrete engine state where the inactive symbol 65 has 1001 trades and
the active symbol is 66. -/
def sC8 : EngineState :=
  ⟨[([65], Book.empty), ([66], Book.empty)],
    [([65], List.replicate 1001 tiSample), ([66], [])], [66], 0, 1, [], []⟩

/-- C8 counterexample: at the snapshot step, a non-active symbol whose trade
history has grown to 1001 entries is not truncated — its history still holds
1001 trades afterwards, not 500. -/
theorem trade_history_truncation_skips_inactive_symbol :
    ((assocFind sC8.recent_trades [65]).getD []).length > 1000 ∧
    assocFind (snapshot_step sC8 3).recent_trades [65] = assocFind sC8.recent_trades [65] ∧
    ((assocFind (snapshot_step sC8 3).recent_trades [65]).getD []).length = 1001 := by
  have hother : assocFind (snapshot_step sC8 3).recent_trades [65]
      = assocFind sC8.recent_trades [65] := by
    rw [snapshot_step_trades sC8 3 (by decide) Book.empty (by decide)]
    rw [assocFind_update_other _ _ _ _ (by decide)]
  have h65 : assocFind sC8.recent_trades [65] = some (List.replicate 1001 tiSample) := rfl
  refine ⟨?_, hother, ?_⟩
  · rw [h65]
    simp only [Option.getD_some, List.length_replicate]
    omega
  · rw [hother, h65]
    simp only [Option.getD_some, List.length_replicate]

end QuantumFlow
